import Mathlib

/-!
Shallow embedding of the conversation-state, rate-limiting, retry and
retrieval logic of the rag-backend repository
(src/services/chatService.ts, src/services/retrievalService.ts,
src/utils/retry.ts, src/config/prompts.ts), together with proofs of the
behavioural properties stated about that code.

Timestamps (JS `Date.now()` milliseconds) are modelled as `Int`.
JS strings are modelled as Lean `String` (lengths in code points; all
constants compared against lengths in the source are ASCII-insensitive
to this difference).
-/

namespace RagBackend

/-- Message roles, from the ChatMessage type used throughout chatService.ts. -/
inductive Role where
  | system
  | user
  | assistant
deriving DecidableEq, Repr

/-- A chat message `{role, content}` (src/types/chat, as used by chatService.ts). -/
structure ChatMessage where
  role : Role
  content : String
deriving DecidableEq, Repr

/-! ## Constants (chatService.ts lines 60-76) -/

def MAX_HISTORY_LENGTH : Nat := 10

def MAX_TOTAL_TOKENS : Nat := 8000

def STATE_EXPIRY_MS : Int := 30 * 60 * 1000

def OPENAI_CONTEXT_EXPIRY_MS : Int := 5 * 60 * 1000

def MAX_KEY_POINTS : Nat := 5

def maxRequestsPerMinute : Nat := 60

def maxConcurrentRequests : Nat := 10

/-! ## Rate limiting (chatService.ts: checkRateLimit, cleanupRateLimits)

`requestCounts` maps a user id to `{count, timestamp}`; it is modelled as an
association list in insertion order (JS `Map` preserves insertion order). -/

/-- One per-user entry of `requestCounts`: `{count, timestamp}`. -/
structure RateRecord where
  count : Nat
  timestamp : Int
deriving DecidableEq, Repr

/-- Model of `checkRateLimit` (chatService.ts lines 513-535) acting on the single user's
record: returns the admit decision and the record stored afterwards.
A missing record or an expired window (`now - timestamp > 60000`) is replaced
by a fresh `{count: 1, timestamp: now}` record and the call is admitted;
at `count ≥ maxRequestsPerMinute` the call is rejected without incrementing;
otherwise the count is incremented and the call admitted. -/
def checkRateLimit (rec : Option RateRecord) (now : Int) : Bool × RateRecord :=
  match rec with
  | none => (true, ⟨1, now⟩)
  | some r =>
    if now - r.timestamp > 60000 then (true, ⟨1, now⟩)
    else if r.count ≥ maxRequestsPerMinute then (false, r)
    else (true, ⟨r.count + 1, r.timestamp⟩)

/-- The whole `requestCounts` map, in JS `Map` insertion order. -/
def RateMap := List (String × RateRecord)

/-- Model of `Map.get` on `requestCounts`. -/
def getRecord (m : List (String × RateRecord)) (k : String) : Option RateRecord :=
  (m.find? (fun p => p.1 = k)).map (fun p => p.2)

/-- Model of `Map.set` on `requestCounts`: overwrite in place if present, else append. -/
def setRecord (m : List (String × RateRecord)) (k : String) (v : RateRecord) :
    List (String × RateRecord) :=
  match m with
  | [] => [(k, v)]
  | p :: rest => if p.1 = k then (k, v) :: rest else p :: setRecord rest k v

/-- Model of `cleanupRateLimits` (chatService.ts lines 553-560): deletes every entry
whose `timestamp` is more than 60000 ms in the past. -/
def cleanupRateLimits (m : List (String × RateRecord)) (now : Int) :
    List (String × RateRecord) :=
  m.filter (fun p => ¬ now - p.2.timestamp > 60000)

/-- Number of admitted calls and final record after a sequence of
`checkRateLimit` calls for one user, at the given times. -/
def runRateChecks (rec : Option RateRecord) : List Int → Nat × Option RateRecord
  | [] => (0, rec)
  | t :: ts =>
    let step := checkRateLimit rec t
    let rest := runRateChecks (some step.2) ts
    ((if step.1 then 1 else 0) + rest.1, rest.2)

/-! ## Request validation (chatService.ts: containsMaliciousContent,
validateRequest, handleChat validation phase) -/

/-- JS `String.prototype.toLowerCase`, on the character list. -/
def jsToLower (s : String) : String := String.mk (s.toList.map Char.toLower)

/-- JS `String.prototype.trim`: strip whitespace from both ends. -/
def jsTrim (s : String) : String :=
  String.mk
    (((s.toList.dropWhile Char.isWhitespace).reverse.dropWhile
        Char.isWhitespace).reverse)

/-- Case-insensitive substring test on char lists (the pattern is given
lowercase; the haystack is lowered before the call). -/
def containsLower : List Char → List Char → Bool
  | [], pat => pat.isEmpty
  | c :: rest, pat => pat.isPrefixOf (c :: rest) || containsLower rest pat

/-- The suspicious patterns of `containsMaliciousContent` (chatService.ts
lines 539-548); each `/…/i` regex there is a literal, matched
case-insensitively. -/
def suspiciousPatterns : List String :=
  ["<script>", "javascript:", "eval(", "onload=", "onerror=", "onclick=",
   "data:", "vbscript:"]

/-- Model of `containsMaliciousContent` (chatService.ts lines 537-551). -/
def containsMaliciousContent (text : String) : Bool :=
  suspiciousPatterns.any
    (fun pat => containsLower (jsToLower text).toList pat.toList)

/-- The question-content validation errors of `validateRequest`
(chatService.ts lines 492-505), in the order the source pushes them:
too long, empty, malicious. -/
def questionErrors (question : String) : List String :=
  (if question.length > 1000 then
    ["Question is too long. Please keep it under 1000 characters."] else [])
  ++ (if jsTrim question = "" then ["Question cannot be empty."] else [])
  ++ (if containsMaliciousContent question then
    ["Question contains potentially malicious content."] else [])

/-- Model of `validateRequest` (chatService.ts lines 479-511) for one user record:
runs the rate-limit check first (mutating the user's record), then the
concurrency check, then the question checks; the request is valid iff the
error list is empty. Returns the validation outcome together with the
record stored by the embedded `checkRateLimit` call. -/
def validateRequest (rec : Option RateRecord) (activeRequests : Nat)
    (question : String) (now : Int) : (Bool × List String) × RateRecord :=
  let rl := checkRateLimit rec now
  let errors :=
    (if ¬ rl.1 then
      ["Rate limit exceeded. Please wait before making more requests."] else [])
    ++ (if activeRequests ≥ maxConcurrentRequests then
      ["Too many concurrent requests. Please try again later."] else [])
    ++ questionErrors question
  ((errors.isEmpty, errors), rl.2)

/-- The validation phase of `handleChat` (chatService.ts lines 596-607):
`cleanupRateLimits` first, then `validateRequest`; on failure the joined
error message is thrown before any pipeline work. Returns the outcome and
the `requestCounts` map after the call. -/
def handleChatValidate (m : List (String × RateRecord)) (userId : String)
    (activeRequests : Nat) (question : String) (now : Int) :
    Except String Unit × List (String × RateRecord) :=
  let cleaned := cleanupRateLimits m now
  let v := validateRequest (getRecord cleaned userId) activeRequests question now
  (if v.1.1 then Except.ok () else Except.error (String.intercalate " " v.1.2),
   setRecord cleaned userId v.2)

/-! ## Conversation state (chatService.ts: ConversationState, getOrCreateState,
updateState, updateConversationHistory, updateConversationSummary,
optimizeOpenAIContext) -/

/-- Model of `SYSTEM_PROMPTS.LEGAL` (src/config/prompts.ts lines 3-10). -/
def SYSTEM_PROMPT_LEGAL : String :=
  "Ste AI právny asistent špecializovaný na slovenské právo. Vaša úloha je:\n" ++
  "1. Poskytnúť presné právne informácie na základe poskytnutého kontextu\n" ++
  "2. Jasne a presne vysvetliť právne pojmy\n" ++
  "3. Odkazovať na konkrétne zákony a predpisy, keď je to vhodné\n" ++
  "4. Udržiavať profesionálny a formálny jazyk\n" ++
  "5. Vždy uviesť, keď robíte predpoklady alebo keď môžu byť informácie neúplné\n" ++
  "6. Uprednostniť presnosť pred špekuláciami\n" ++
  "7. Zahrnúť relevantné citácie, keď sú k dispozícii"

/-- The `currentCase` sub-record of ConversationState. -/
structure CurrentCase where
  caseId : String
  court : String
  caseNumber : String
  domain : String
deriving DecidableEq, Repr

/-- The structured record stored in `openAIContext.lastAnalysis`
(chatService.ts lines 26-33); its contents come from parsing a completion
response, supplied here as an oracle value. -/
structure ConversationAnalysis where
  mainTopics : List String
  keyLegalConcepts : List String
  importantDecisions : List String
  relevantLaws : List String
  conversationFlow : String
  timestamp : Int
deriving DecidableEq, Repr

/-- The `openAIContext` sub-record of ConversationState (chatService.ts
lines 20-34). -/
structure OpenAIContextState where
  messages : List ChatMessage
  lastTokenCount : Nat
  lastUpdateTime : Int
  summary : String
  keyPoints : List String
  lastAnalysis : Option ConversationAnalysis
deriving DecidableEq, Repr

/-- The per-conversation state (chatService.ts lines 8-35). -/
structure ConversationState where
  currentCase : Option CurrentCase
  isFollowUpQuestion : Bool
  previousQuestions : List String
  lastResponse : String
  timestamp : Int
  history : List ChatMessage
  openAIContext : OpenAIContextState
deriving DecidableEq, Repr

/-- The empty state created by `getOrCreateState` (chatService.ts
lines 96-110 and 116-130). -/
def freshState (now : Int) : ConversationState where
  currentCase := none
  isFollowUpQuestion := false
  previousQuestions := []
  lastResponse := ""
  timestamp := now
  history := []
  openAIContext :=
    { messages := []
      lastTokenCount := 0
      lastUpdateTime := now
      summary := ""
      keyPoints := []
      lastAnalysis := none }

/-- Model of `getOrCreateState` (chatService.ts lines 92-135): create an empty state
if absent, then replace it with a fresh one if expired
(`now - timestamp > STATE_EXPIRY_MS`). -/
def getOrCreateState (st : Option ConversationState) (now : Int) :
    ConversationState :=
  let s := st.getD (freshState now)
  if now - s.timestamp > STATE_EXPIRY_MS then freshState now else s

/-- JS `array.slice(-n)`: the most recent `n` entries. -/
def takeLast (n : Nat) (l : List α) : List α := l.drop (l.length - n)

/-- The `Partial<ConversationState>` argument of `updateState`. -/
structure StateUpdates where
  currentCase : Option CurrentCase := none
  isFollowUpQuestion : Option Bool := none
  previousQuestions : Option (List String) := none
  lastResponse : Option String := none
  history : Option (List ChatMessage) := none
deriving DecidableEq, Repr

/-- Model of `updateState` (chatService.ts lines 365-391): fetch-or-create the state,
merge the provided fields (`history` and `previousQuestions` are sliced to
the most recent `MAX_HISTORY_LENGTH` entries; an empty-string
`lastResponse` is skipped by JS truthiness), refresh the timestamp. -/
def updateState (st : Option ConversationState) (u : StateUpdates) (now : Int) :
    ConversationState :=
  let s0 := getOrCreateState st now
  let s1 := match u.currentCase with
    | some c => { s0 with currentCase := some c }
    | none => s0
  let s2 := match u.isFollowUpQuestion with
    | some b => { s1 with isFollowUpQuestion := b }
    | none => s1
  let s3 := match u.previousQuestions with
    | some q => { s2 with previousQuestions := takeLast MAX_HISTORY_LENGTH q }
    | none => s2
  let s4 := match u.lastResponse with
    | some r => if r = "" then s3 else { s3 with lastResponse := r }
    | none => s3
  let s5 := match u.history with
    | some h => { s4 with history := takeLast MAX_HISTORY_LENGTH h }
    | none => s4
  { s5 with timestamp := now }

/-- Model of `updateConversationHistory` (chatService.ts lines 690-699). -/
def updateConversationHistory (st : Option ConversationState)
    (h : List ChatMessage) (now : Int) : ConversationState :=
  let s := getOrCreateState st now
  { s with history := takeLast MAX_HISTORY_LENGTH h, timestamp := now }

/-! ### Summary regeneration (chatService.ts: updateConversationSummary)

The two completion calls are external; their responses enter the model as
oracle values. The outcome of the method is one of: the analysis + summary
calls both succeeded, the primary path threw and the fallback call
succeeded, or both paths threw (state untouched). -/

/-- Model of `^[0-9]+\.\s*` matched at the start of a line: the stripped remainder,
or `none` when the line does not start with a numeric label. -/
def stripNumericLabel (l : String) : Option String :=
  let cs := l.toList
  let ds := cs.takeWhile Char.isDigit
  if ds.isEmpty then none
  else
    match cs.drop ds.length with
    | '.' :: rest => some (String.mk (rest.dropWhile Char.isWhitespace))
    | _ => none

/-- One line of the primary summary response after
`replace(/^(SUMMARY:|KEY_POINTS:|[0-9]+\.\s*)/, '').trim()`
(chatService.ts line 298). -/
def stripSummaryLabel (l : String) : String :=
  (if l.startsWith "SUMMARY:" then l.drop 8
   else if l.startsWith "KEY_POINTS:" then l.drop 11
   else (stripNumericLabel l).getD l).trim

/-- One line of the fallback summary response after
`replace(/^[0-9]+\.\s*/, '').trim()` (chatService.ts line 344). -/
def stripNumberOnlyLabel (l : String) : String :=
  ((stripNumericLabel l).getD l).trim

/-- Model of `split('\n').filter(line => line.trim())` then per-line label stripping
(chatService.ts lines 295-298 and 341-344). -/
def parseSummaryLines (strip : String → String) (resp : String) : List String :=
  ((resp.splitOn "\n").filter (fun l => ¬ l.trim = "")).map strip

/-- The external outcome of one `updateConversationSummary` call. -/
inductive SummaryOutcome where
  | analysisOk (analysis : ConversationAnalysis) (summaryResponse : String)
  | fallbackOk (fallbackResponse : String)
  | bothFail
deriving DecidableEq, Repr

/-- The state effect of `updateConversationSummary` (chatService.ts
lines 227-357): on success the first parsed line becomes the summary (JS
destructuring leaves `undefined` for an empty response, modelled as `""`)
and the remaining lines, capped to `MAX_KEY_POINTS`, become the key points;
the primary path additionally stores the analysis; on double failure the
state is left unchanged. -/
def applySummaryOutcome (st : ConversationState) (o : SummaryOutcome) :
    ConversationState :=
  match o with
  | SummaryOutcome.analysisOk a resp =>
    let lines := parseSummaryLines stripSummaryLabel resp
    { st with openAIContext :=
      { st.openAIContext with
          summary := lines.headD ""
          keyPoints := (lines.drop 1).take MAX_KEY_POINTS
          lastAnalysis := some a } }
  | SummaryOutcome.fallbackOk resp =>
    let lines := parseSummaryLines stripNumberOnlyLabel resp
    { st with openAIContext :=
      { st.openAIContext with
          summary := lines.headD ""
          keyPoints := (lines.drop 1).take MAX_KEY_POINTS } }
  | SummaryOutcome.bothFail => st

/-! ### Context optimisation (chatService.ts: estimateTokenCount,
optimizeOpenAIContext) -/

/-- Model of `estimateTokenCount` (chatService.ts lines 359-363):
`Σ ceil(content.length / 4)`. -/
def estimateTokenCount (msgs : List ChatMessage) : Nat :=
  msgs.foldl (fun acc m => acc + (m.content.length + 3) / 4) 0

/-- Whether `now - lastUpdateTime > OPENAI_CONTEXT_EXPIRY_MS`
(chatService.ts line 142). -/
def contextExpired (st : ConversationState) (now : Int) : Bool :=
  now - st.openAIContext.lastUpdateTime > OPENAI_CONTEXT_EXPIRY_MS

/-- The system message unshifted when none is present
(chatService.ts lines 151-156). -/
def systemLegalMessage : ChatMessage :=
  ⟨Role.system, SYSTEM_PROMPT_LEGAL⟩

/-- The summary context message (chatService.ts lines 162-167). -/
def summaryMessage (summary : String) : ChatMessage :=
  ⟨Role.system, "Previous conversation summary: " ++ summary⟩

/-- The key-points context message (chatService.ts lines 170-175). -/
def keyPointsMessage (kps : List String) : ChatMessage :=
  ⟨Role.system,
   "Key points from previous conversation:\n" ++ String.intercalate "\n" kps⟩

/-- Appending the recent history while skipping messages whose content is
already present (chatService.ts lines 177-184; the JS `Set` of contents is
exactly the set of contents of the accumulated list). -/
def dedupAppend (msgs : List ChatMessage) (hist : List ChatMessage) :
    List ChatMessage :=
  hist.foldl
    (fun acc m =>
      if acc.any (fun x => x.content = m.content) then acc else acc ++ [m])
    msgs

/-- The message list assembled by `optimizeOpenAIContext` before the token
budget check (chatService.ts lines 138-184): seed from the cached messages
(or the last 3 history entries when the context TTL expired, which also
clears the summary and key points before they are read), ensure a system
message, append summary and key-points messages, then dedup-append the
recent history. -/
def assembleMessages (st : ConversationState) (now : Int) : List ChatMessage :=
  let expired := contextExpired st now
  let seed := if expired then takeLast 3 st.history else st.openAIContext.messages
  let effSummary := if expired then "" else st.openAIContext.summary
  let effKeyPoints := if expired then [] else st.openAIContext.keyPoints
  let ms0 :=
    if seed.any (fun m => m.role == Role.system) then seed
    else systemLegalMessage :: seed
  let ms1 := ms0 ++ (if effSummary = "" then [] else [summaryMessage effSummary])
  let ms2 :=
    ms1 ++ (if effKeyPoints.isEmpty then [] else [keyPointsMessage effKeyPoints])
  dedupAppend ms2 (takeLast MAX_HISTORY_LENGTH st.history)

/-- The re-fill loop of the over-budget branch (chatService.ts
lines 195-204): walk the recent history from most recent to oldest, keep a
message only while the accumulated list stays within `MAX_TOTAL_TOKENS`,
stop at the first message that does not fit. -/
def refitLoop (cur : List ChatMessage) : List ChatMessage → List ChatMessage
  | [] => cur
  | m :: rest =>
    if estimateTokenCount (cur ++ [m]) ≤ MAX_TOTAL_TOKENS then
      refitLoop (cur ++ [m]) rest
    else cur

/-- The message list returned by `optimizeOpenAIContext` (chatService.ts
lines 186-208 and 224): the assembled list, unless its estimated token
count exceeds `MAX_TOTAL_TOKENS`, in which case the list is reset to the
first system message and refilled from the most recent history entries.
The `none` branch of `find?` is unreachable: the assembly always inserts a
system message. -/
def optimizeMessages (st : ConversationState) (now : Int) : List ChatMessage :=
  let msgs := assembleMessages st now
  if estimateTokenCount msgs > MAX_TOTAL_TOKENS then
    match msgs.find? (fun m => m.role == Role.system) with
    | some s => refitLoop [s] (takeLast MAX_HISTORY_LENGTH st.history).reverse
    | none => []
  else msgs

/-- The full state effect of `optimizeOpenAIContext` (chatService.ts
lines 137-225): the TTL-expiry branch clears `lastTokenCount`, `summary`
and `keyPoints`; the over-budget branch triggers
`updateConversationSummary` (oracle `o`); the optimised messages, their
token count and the update time are persisted. -/
def optimizeOpenAIContext (st : ConversationState) (now : Int)
    (o : SummaryOutcome) : ConversationState × List ChatMessage :=
  let st1 :=
    if contextExpired st now then
      { st with openAIContext :=
        { st.openAIContext with lastTokenCount := 0, summary := "", keyPoints := [] } }
    else st
  let final := optimizeMessages st now
  let st2 :=
    if estimateTokenCount (assembleMessages st now) > MAX_TOTAL_TOKENS then
      applySummaryOutcome st1 o
    else st1
  ({ st2 with openAIContext :=
      { st2.openAIContext with
          messages := final
          lastTokenCount := estimateTokenCount final
          lastUpdateTime := now } },
   final)

/-! ### The state-mutating operations of claim C1, as one step relation -/

/-- A state-mutating operation on one conversation's state: the operations
reachable through `handleChat`, `handleMessage`, `updateConversationHistory`
and `clearConversation`. -/
inductive ChatOp where
  | getOrCreate (now : Int)
  | update (u : StateUpdates) (now : Int)
  | updateHistoryDirect (h : List ChatMessage) (now : Int)
  | summarize (o : SummaryOutcome)
  | optimize (now : Int) (o : SummaryOutcome)
  | clear

/-- Apply one operation to a conversation's (possibly absent) state. -/
def applyChatOp (st : Option ConversationState) : ChatOp → Option ConversationState
  | ChatOp.getOrCreate now => some (getOrCreateState st now)
  | ChatOp.update u now => some (updateState st u now)
  | ChatOp.updateHistoryDirect h now => some (updateConversationHistory st h now)
  | ChatOp.summarize o => st.map (fun s => applySummaryOutcome s o)
  | ChatOp.optimize now o => st.map (fun s => (optimizeOpenAIContext s now o).1)
  | ChatOp.clear => none

/-- The C1 invariant on a single state. -/
def stateInv (s : ConversationState) : Prop :=
  s.history.length ≤ MAX_HISTORY_LENGTH ∧
  s.openAIContext.keyPoints.length ≤ MAX_KEY_POINTS

/-- The C1 invariant on a possibly-absent state. -/
def optStateInv : Option ConversationState → Prop
  | none => True
  | some s => stateInv s

/-! ## Retry executor (src/utils/retry.ts: withRetry)

The fallible operation is modelled as a map from the attempt number
(1-based) to that invocation's outcome. The model returns the final
outcome, the number of invocations made, and the list of delays waited
(in ms, in order). `Except.error none` models the `throw lastError` with
`lastError` still `null`, reachable only when `maxAttempts = 0`. -/

/-- The retry policy `{maxAttempts, minDelay, maxDelay}` (retry.ts lines 3-7). -/
structure RetryOptions where
  maxAttempts : Nat
  minDelay : Nat
  maxDelay : Nat
deriving DecidableEq, Repr

/-- The `for (let attempt = 1; attempt <= maxAttempts; ...)` loop of
`withRetry` (retry.ts lines 15-35): `rem` counts the remaining iterations
after the current one. On failure with iterations remaining, wait
`min(minDelay * 2^(attempt-1), maxDelay)` and continue. -/
def withRetryLoop (op : Nat → Except ε α) (minDelay maxDelay : Nat) :
    Nat → Nat → Option ε → Except (Option ε) α × Nat × List Nat
  | _, 0, lastError => (Except.error lastError, 0, [])
  | attempt, rem + 1, _ =>
    match op attempt with
    | Except.ok a => (Except.ok a, 1, [])
    | Except.error e =>
      if rem = 0 then (Except.error (some e), 1, [])
      else
        let d := min (minDelay * 2 ^ (attempt - 1)) maxDelay
        let r := withRetryLoop op minDelay maxDelay (attempt + 1) rem (some e)
        (r.1, r.2.1 + 1, d :: r.2.2)

/-- Model of `withRetry` (retry.ts lines 9-38). -/
def withRetry (op : Nat → Except ε α) (opts : RetryOptions) :
    Except (Option ε) α × Nat × List Nat :=
  withRetryLoop op opts.minDelay opts.maxDelay 1 opts.maxAttempts none

/-- The delays produced by the first `k` attempts all failing with attempts
remaining: `min(minDelay * 2^(i-1), maxDelay)` for `i = 1..k`. -/
def backoffDelays (minDelay maxDelay k : Nat) : List Nat :=
  (List.range k).map (fun i => min (minDelay * 2 ^ i) maxDelay)

/-! ## Retrieval pipeline (src/services/retrievalService.ts)

External vector-search calls return `Document` records; the per-case chunk
fetches may fail, modelled as `Except`. Scores are JS floats, modelled as
rationals (no claim depends on float rounding). -/

/-- The payload-derived metadata of a LangChain `Document` as consumed by
`searchRelevantDocuments` and `fetchCaseChunks`. -/
structure DocMetadata where
  caseId : Option String := none
  caseNumber : Option String := none
  court : Option String := none
  decisionDate : Option String := none
  judge : Option String := none
  url : Option String := none
  chunkIndex : Option Nat := none
  type : Option String := none
  score : Option ℚ := none
  text : Option String := none
deriving DecidableEq, Repr

/-- A LangChain `Document`. -/
structure Document where
  pageContent : String
  metadata : DocMetadata
deriving DecidableEq, Repr

/-- The `SearchResult` interface (retrievalService.ts lines 17-31). -/
structure SearchMetadata where
  caseId : Option String := none
  caseNumber : Option String := none
  court : Option String := none
  decisionDate : Option String := none
  judge : Option String := none
  url : Option String := none
  relevanceScore : Option ℚ := none
  chunkIndex : Option Nat := none
  type : Option String := none
deriving DecidableEq, Repr

/-- A search hit (retrievalService.ts lines 17-31). -/
structure SearchResult where
  pageContent : String
  metadata : SearchMetadata
  score : ℚ
deriving DecidableEq, Repr

/-- Model of `ERROR_MESSAGES.NO_RELEVANT_DOCS` as imported by retrievalService.ts
from src/config/prompts.ts (line 27). -/
def ERROR_NO_RELEVANT_DOCS : String :=
  "Pre vašu otázku neboli nájdené žiadne relevantné dokumenty"

/-- Model of `ERROR_MESSAGES.RETRIEVAL_ERROR` (src/config/prompts.ts line 26), the
generic retrieval failure message. -/
def ERROR_RETRIEVAL_GENERIC : String :=
  "Chyba pri získavaní relevantných dokumentov"

/-- Model of `RETRIEVAL_PROMPTS.QUERY_EXPANSION` with `{query}` substituted
(src/config/prompts.ts lines 51-58). -/
def queryExpansionPrompt (query : String) : String :=
  "Rozšírte túto právnu otázku o relevantné právne termíny a koncepty:\n" ++
  query ++
  "\n\nProsím poskytnite rozšírenú verziu otázky, ktorá zahŕňa:\n" ++
  "1. Relevantné právne termíny\n2. Súvisiace koncepty\n" ++
  "3. Špecifické zákony alebo predpisy\n4. Právne oblasti"

/-- Model of `expandQuery` (retrievalService.ts lines 384-393): a single completion
call over `queryExpansionPrompt`; its outcome is the oracle argument. On
success the trimmed response is the expanded query; on failure the
original query is returned unchanged. -/
def expandQuery (completionOutcome : Except String String) (query : String) :
    String :=
  match completionOutcome with
  | Except.ok resp => resp.trim
  | Except.error _ => query

/-- JS truthiness on `doc.metadata.caseId` (`if (caseId)`): an absent or
empty id is skipped. -/
def docCaseId (d : Document) : Option String :=
  match d.metadata.caseId with
  | some c => if c = "" then none else some c
  | none => none

/-- Collecting the `Set` of case ids from a hit list (retrievalService.ts
lines 587-595 and 600-604); JS `Set` iteration preserves insertion order. -/
def collectCaseIds (docs : List Document) : List String :=
  docs.foldl
    (fun acc d =>
      match docCaseId d with
      | some cid => if cid ∈ acc then acc else acc ++ [cid]
      | none => acc)
    []

/-- Model of `summaryMap.get cid` after every summary hit with a truthy case id was
`set` into the map (last write wins). -/
def summaryFor (docs : List Document) (cid : String) : Option Document :=
  (docs.filter (fun d => docCaseId d == some cid)).getLast?

/-- The search query assembled from the raw query and the conversation
cache (retrievalService.ts lines 559-569): when previous documents exist,
append the first 2 of them, joined and cut to 300 characters. -/
def buildSearchQuery (query : String) (prevDocs : List SearchResult) : String :=
  if prevDocs.isEmpty then query
  else
    query ++ "\n\nContext: " ++
      (String.intercalate "\n" ((prevDocs.take 2).map (fun d => d.pageContent))).take 300

/-- Model of `Promise.all`: the joined results of all promises, or the rejection of
a failed one (modelled as the first in list order). -/
def promiseAll : List (Except ε α) → Except ε (List α)
  | [] => Except.ok []
  | Except.error e :: _ => Except.error e
  | Except.ok a :: rest => (promiseAll rest).map (fun l => a :: l)

/-- Model of `a.metadata.chunkIndex || 0` on a `Document`. -/
def docChunkIdx (d : Document) : Nat := d.metadata.chunkIndex.getD 0

/-- The `SearchResult` built from the `index`-th document of the combined
list (retrievalService.ts lines 652-668); `total` is
`combinedDocs.length`. JS `x || y` on the score treats `0` as absent. -/
def toSearchResult (total : Nat) (index : Nat) (doc : Document) : SearchResult :=
  let fallbackScore : ℚ := 1 - (index : ℚ) / (total : ℚ)
  let score : ℚ :=
    match doc.metadata.score with
    | some s => if s = 0 then fallbackScore else s
    | none => fallbackScore
  { pageContent :=
      if doc.pageContent = "" then (doc.metadata.text.getD "") else doc.pageContent
    metadata :=
      { caseId := doc.metadata.caseId
        caseNumber := doc.metadata.caseNumber
        court := doc.metadata.court
        decisionDate := doc.metadata.decisionDate
        judge := doc.metadata.judge
        url := doc.metadata.url
        relevanceScore := some score
        chunkIndex := doc.metadata.chunkIndex
        type := doc.metadata.type }
    score := score }

/-- One recorded external call of the search pipeline. -/
inductive ExtCall where
  | vectorSearch (query : String) (k : Nat) (filterDesc : String)
  | completion (prompt : String)
deriving DecidableEq, Repr

/-- The external world seen by one `searchRelevantDocuments` call: the hit
lists of the two candidate vector searches and the per-case content-chunk
fetch outcomes. -/
structure SearchEnv where
  summaryHits : List Document
  generalHits : List Document
  chunkFetch : String → Except String (List Document)

/-- The deduplicated case-id set after the two candidate searches
(retrievalService.ts lines 587-605): the ids of the summary hits, or, when
none carries an id, the ids of the unfiltered fallback hits. -/
def discoveredCaseIds (env : SearchEnv) : List String :=
  let ids1 := collectCaseIds env.summaryHits
  if ids1 = [] then collectCaseIds env.generalHits else ids1

/-- Model of `searchRelevantDocuments` (retrievalService.ts lines 551-689), given
the cached `previousDocuments` of the conversation and the external search
environment. Returns the result (the `catch` block rethrows, so a
`Promise.all` rejection propagates) together with the list of external
calls issued, in order. The write-back of the top-2 results into the
conversation cache (lines 670-674) is a side effect not represented in the
returned value. -/
def searchRelevantDocuments (query : String) (prevDocs : List SearchResult)
    (env : SearchEnv) : Except String (List SearchResult) × List ExtCall :=
  let searchQuery := buildSearchQuery query prevDocs
  let summaryCall := [ExtCall.vectorSearch searchQuery 3 "type=Zhrnutie"]
  let caseIds := discoveredCaseIds env
  let fallbackCall :=
    if collectCaseIds env.summaryHits = [] then
      [ExtCall.vectorSearch searchQuery 3 "unfiltered"]
    else []
  let chunkCalls :=
    caseIds.map (fun cid =>
      ExtCall.vectorSearch "" 5 ("caseId=" ++ cid ++ ",type=content"))
  let calls := summaryCall ++ fallbackCall ++ chunkCalls
  match promiseAll
      (caseIds.map (fun cid => (env.chunkFetch cid).map (fun cs => (cid, cs)))) with
  | Except.error e => (Except.error e, calls)
  | Except.ok chunkResults =>
    let summaries := chunkResults.filterMap (fun p => summaryFor env.summaryHits p.1)
    let allDocs := (chunkResults.map (fun p => p.2)).flatten
    let sorted := allDocs.mergeSort (fun a b => docChunkIdx a ≤ docChunkIdx b)
    let combined := summaries ++ sorted
    let results :=
      (combined.take 5).mapIdx (fun i d => toSearchResult combined.length i d)
    (Except.ok results, calls)

/-- The record returned by `fetchCaseChunks` (retrievalService.ts
lines 691-743). -/
structure CaseChunksResult where
  chunks : Option (List Document)
  summary : Option Document
deriving DecidableEq, Repr

/-- Model of `fetchCaseChunks` (retrievalService.ts lines 691-743): fetch the case's
summary record, then its content chunks; when an initial-search score is
supplied, stamp it onto the summary and `0.9 ×` it onto the chunks. Any
failure is caught and yields the empty record `{}` — the case then simply
contributes no documents. -/
def fetchCaseChunks (summaryFetch chunkFetch : Except String (List Document))
    (summaryScore : Option ℚ) : CaseChunksResult :=
  match summaryFetch with
  | Except.error _ => ⟨none, none⟩
  | Except.ok summaryDocs =>
    let summaryDocs :=
      match summaryScore, summaryDocs with
      | some sc, d :: rest =>
        ({ d with metadata := { d.metadata with score := some sc } }) :: rest
      | _, l => l
    match chunkFetch with
    | Except.error _ => ⟨none, none⟩
    | Except.ok chunkDocs =>
      let chunkDocs :=
        match summaryScore with
        | some sc =>
          chunkDocs.map (fun d =>
            { d with metadata := { d.metadata with score := some (sc * (9 / 10)) } })
        | none => chunkDocs
      ⟨some chunkDocs, summaryDocs.head?⟩

/-! ## Case-aware result formatting (retrievalService.ts: formatSearchResults) -/

/-- JS `x || 'unknown'` on `result.metadata.caseId` (line 786): an absent or
empty id falls back to `'unknown'`. -/
def caseKey (r : SearchResult) : String :=
  match r.metadata.caseId with
  | some c => if c = "" then "unknown" else c
  | none => none.getD "unknown"

/-- JS `x || 'N/A'` on the optional header metadata fields. -/
def orNA (o : Option String) : String :=
  match o with
  | some s => if s = "" then "N/A" else s
  | none => "N/A"

/-- Append a result to its case's group inside the insertion-ordered
group list (the JS `Map<string, SearchResult[]>` of lines 784-791). -/
def insertGroup (groups : List (String × List SearchResult)) (key : String)
    (r : SearchResult) : List (String × List SearchResult) :=
  match groups with
  | [] => [(key, [r])]
  | (k, rs) :: rest =>
    if k = key then (k, rs ++ [r]) :: rest else (k, rs) :: insertGroup rest key r

/-- Grouping the hit list by case id, preserving both the order in which
case ids first appear and the relative order of each case's hits
(retrievalService.ts lines 784-791). -/
def groupByCase (results : List SearchResult) :
    List (String × List SearchResult) :=
  results.foldl (fun gs r => insertGroup gs (caseKey r) r) []

/-- The case ids of a hit list in order of first appearance. -/
def firstAppearanceKeys (results : List SearchResult) : List String :=
  (results.map caseKey).foldl (fun acc k => if k ∈ acc then acc else acc ++ [k]) []

/-- Model of `a.metadata.chunkIndex || 0` on a `SearchResult` (line 803). -/
def chunkIdx (r : SearchResult) : Nat := r.metadata.chunkIndex.getD 0

/-- The summary hits of one case's group (line 799). -/
def summariesOf (rs : List SearchResult) : List SearchResult :=
  rs.filter (fun r => r.metadata.type == some "Zhrnutie")

/-- The content chunks of one case's group, sorted ascending by
`chunkIndex || 0` (lines 800-803; JS `Array.sort` is stable, modelled by
`mergeSort`). -/
def sortedContentChunks (rs : List SearchResult) : List SearchResult :=
  (rs.filter (fun r => r.metadata.type == some "content")).mergeSort
    (fun a b => chunkIdx a ≤ chunkIdx b)

/-- A zero-padded 4-digit block. -/
def pad4 (s : String) : String :=
  String.mk (List.replicate (4 - s.length) '0') ++ s

/-- Model of `score.toFixed(4)` (line 824), on the rational model of the float
score: round half up to 4 decimal places and render. -/
def toFixed4 (q : ℚ) : String :=
  let m : Int := Int.floor (q * 10000 + 1 / 2)
  let a := m.natAbs
  (if m < 0 then "-" else "") ++ toString (a / 10000) ++ "." ++
    pad4 (toString (a % 10000))

/-- The header of a case block (lines 806-810). -/
def caseHeader (md : SearchMetadata) : String :=
  "=== Rozsudok " ++ orNA md.caseNumber ++ " ===\n" ++
  "Súd: " ++ orNA md.court ++ "\n" ++
  "Dátum: " ++ orNA md.decisionDate ++ "\n" ++
  "Sudca: " ++ orNA md.judge ++ "\n" ++
  "URL: " ++ orNA md.url ++ "\n"

/-- The `Zhrnutie:` section of a case block (lines 813-816), present only
when the case has summary hits, and preceding the content section. -/
def summarySection (summaries : List SearchResult) : String :=
  if summaries.isEmpty then ""
  else
    "\nZhrnutie:\n" ++
      String.intercalate "\n\n" (summaries.map (fun s => s.pageContent)) ++ "\n"

/-- The `Obsah:` section of a case block (lines 819-822), built from the
index-sorted content chunks. -/
def contentSection (chunks : List SearchResult) : String :=
  if chunks.isEmpty then ""
  else
    "\nObsah:\n" ++
      String.intercalate "\n\n" (chunks.map (fun c => c.pageContent)) ++ "\n"

/-- The trailing score line of a case block (lines 824-825). -/
def scoreFooter (firstScore : ℚ) : String :=
  "\nRelevance Score: " ++ toFixed4 firstScore ++ "\n-------------------"

/-- A default hit for the (unreachable) head of an empty group. -/
def emptySearchResult : SearchResult :=
  { pageContent := "", metadata := {}, score := 0 }

/-- One case's formatted block (lines 794-853): header from the first hit's
metadata, then the summary section, then the content section, then the
score footer. -/
def formatCaseBlock (caseResults : List SearchResult) : String :=
  let firstResult := caseResults.headD emptySearchResult
  caseHeader firstResult.metadata ++
  summarySection (summariesOf caseResults) ++
  contentSection (sortedContentChunks caseResults) ++
  scoreFooter firstResult.score

/-- Model of `formatSearchResults` (retrievalService.ts lines 778-862): the case
blocks, in case-discovery order, joined by blank lines. -/
def formatSearchResults (results : List SearchResult) : String :=
  String.intercalate "\n\n"
    ((groupByCase results).map (fun p => formatCaseBlock p.2))

/-! ## RAG question handling (retrievalService.ts: handleRagQuestion,
extractMainTopic) -/

/-- The letter class of the topic-extraction pattern
(`[a-zA-ZáéíóúýčďĺľňŕšťžÁÉÍÓÚÝČĎĹĽŇŔŠŤŽ]`, line 229). -/
def isTopicLetter (c : Char) : Bool :=
  ('a' ≤ c ∧ c ≤ 'z') ∨ ('A' ≤ c ∧ c ≤ 'Z') ∨
    c ∈ "áéíóúýčďĺľňŕšťžÁÉÍÓÚÝČĎĹĽŇŔŠŤŽ".toList

/-- The regex `/za\s+(\d+\s*(?:kilo|kg|gramov|g)?\s*[letters]+)/i` of
`extractMainTopic` (line 229), matched at the start of `cs`: the capture
group, or `none`. The unit alternatives are tried in the regex's order,
the empty alternative last; the greedy character classes are disjoint, so
maximal munch is faithful. -/
def matchTopicAt (cs : List Char) : Option (List Char) :=
  match cs with
  | c1 :: c2 :: rest =>
    if (c1 = 'z' ∨ c1 = 'Z') ∧ (c2 = 'a' ∨ c2 = 'A') then
      let ws := rest.takeWhile Char.isWhitespace
      if ws.isEmpty then none
      else
        let afterWs := rest.drop ws.length
        let ds := afterWs.takeWhile Char.isDigit
        if ds.isEmpty then none
        else
          let afterDs := afterWs.drop ds.length
          let ws2 := afterDs.takeWhile Char.isWhitespace
          let afterWs2 := afterDs.drop ws2.length
          ["kilo".toList, "kg".toList, "gramov".toList, "g".toList,
            ([] : List Char)].findSome?
            (fun u =>
              if u.isPrefixOf afterWs2 then
                let afterU := afterWs2.drop u.length
                let ws3 := afterU.takeWhile Char.isWhitespace
                let letters := (afterU.drop ws3.length).takeWhile isTopicLetter
                if letters.isEmpty then none
                else some (ds ++ ws2 ++ u ++ ws3 ++ letters)
              else none)
    else none
  | _ => none

/-- Leftmost match of the topic pattern. -/
def findTopic : List Char → Option (List Char)
  | [] => none
  | c :: rest =>
    match matchTopicAt (c :: rest) with
    | some cap => some cap
    | none => findTopic rest

/-- Model of `extractMainTopic` (retrievalService.ts lines 227-234). -/
def extractMainTopic (q : String) : String :=
  match findTopic q.toList with
  | some cap => (String.mk cap).trim
  | none => "Nešpecifikovaná téma"

/-- The conversation-progress block appended to the response when the
history holds more than one message (retrievalService.ts lines 207-212). -/
def progressIndicator (question : String) (history : List ChatMessage) : String :=
  if history.length > 1 then
    "\n\n=== Progres konverzácie ===\n" ++
    "Otázka " ++ toString history.length ++ " z " ++ toString history.length ++
    "\n" ++ "Téma: " ++ extractMainTopic question ++ "\n" ++
    "=======================\n"
  else ""

/-- The external world of one `handleRagQuestion` call: the search
environment plus the outcome of the final `generateResponseWithContext`
completion call, as a function of the formatted context. -/
structure RagEnv where
  search : SearchEnv
  generate : String → Except String String

/-- Model of `handleRagQuestion` (retrievalService.ts lines 162-225): search, throw
`ERROR_MESSAGES.NO_RELEVANT_DOCS` when the hit list is empty, otherwise
format the context, generate the answer and append the progress
indicator. Every caught error is rethrown (line 223). -/
def handleRagQuestion (question : String) (history : List ChatMessage)
    (prevDocs : List SearchResult) (env : RagEnv) : Except String String :=
  match (searchRelevantDocuments question prevDocs env.search).1 with
  | Except.error e => Except.error e
  | Except.ok results =>
    if results.length = 0 then Except.error ERROR_NO_RELEVANT_DOCS
    else
      match env.generate (formatSearchResults results) with
      | Except.error e => Except.error e
      | Except.ok response =>
        Except.ok (response ++ progressIndicator question history)

/-! ## Concrete inputs used by witnesses and counterexamples -/

/-- A 40000-character user message (10000 estimated tokens). -/
def hugeMessage : ChatMessage :=
  ⟨Role.user, String.mk (List.replicate 40000 'a')⟩

/-- A conversation state whose history alone exceeds the token budget. -/
def overBudgetState : ConversationState :=
  { freshState 0 with history := [hugeMessage] }

/-- A search hit with the given case id, document type, chunk index and
content. -/
def mkHit (cid ty : String) (ci : Option Nat) (content : String) : SearchResult :=
  { pageContent := content
    metadata := { caseId := some cid, type := some ty, chunkIndex := ci }
    score := 1 }

def c2SummaryA : SearchResult := mkHit "case-A" "Zhrnutie" none "summary of A"

def c2A2 : SearchResult := mkHit "case-A" "content" (some 2) "A chunk 2"

def c2A0 : SearchResult := mkHit "case-A" "content" (some 0) "A chunk 0"

def c2A1 : SearchResult := mkHit "case-A" "content" (some 1) "A chunk 1"

def c2B1 : SearchResult := mkHit "case-B" "content" (some 1) "B chunk 1"

def c2B0 : SearchResult := mkHit "case-B" "content" (some 0) "B chunk 0"

/-- The hit list of the C2 example: one case with content chunks at indices
[2,0,1] (plus a summary), another with chunks at [1,0]. -/
def c2Example : List SearchResult :=
  [c2SummaryA, c2A2, c2A0, c2A1, c2B1, c2B0]

/-- Whether an external call is a completion-service call. -/
def isCompletionCall : ExtCall → Bool
  | ExtCall.completion _ => true
  | ExtCall.vectorSearch _ _ _ => false

def c5SummaryA : Document :=
  { pageContent := "summary A"
    metadata := { caseId := some "case-A", type := some "Zhrnutie" } }

def c5SummaryB : Document :=
  { pageContent := "summary B"
    metadata := { caseId := some "case-B", type := some "Zhrnutie" } }

def c5ChunkB : Document :=
  { pageContent := "chunk B"
    metadata :=
      { caseId := some "case-B", type := some "content", chunkIndex := some 0 } }

/-- The C5 environment: two discovered cases; the chunk fetch of the first
fails, the second succeeds. -/
def c5Env : SearchEnv :=
  { summaryHits := [c5SummaryA, c5SummaryB]
    generalHits := []
    chunkFetch := fun cid =>
      if cid = "case-A" then Except.error "network failure"
      else Except.ok [c5ChunkB] }

/-- The C6 environment: both vector searches return nothing. -/
def c6Env : RagEnv :=
  { search :=
      { summaryHits := []
        generalHits := []
        chunkFetch := fun _ => Except.ok [] }
    generate := fun _ => Except.ok "answer" }

/-- The operation of the C3 witness: attempt 1 fails, attempt 2 returns 42. -/
def retryWitnessOp : Nat → Except String Nat :=
  fun j => if j = 2 then Except.ok 42 else Except.error "boom"

/-- The C8 environment: empty hit lists, successful chunk fetches. -/
def c8Env : SearchEnv :=
  { summaryHits := []
    generalHits := []
    chunkFetch := fun _ => Except.ok [] }

end RagBackend

namespace RagBackend

/-! # Theorems -/

theorem length_takeLast (n : Nat) (l : List α) : (takeLast n l).length ≤ n := by
  simp only [takeLast, List.length_drop]
  omega

/-! ## C7: per-user rate limiting -/

theorem runRateChecks_window (ts : List Int) :
    ∀ (c : Nat) (t0 : Int), 1 ≤ c → c ≤ maxRequestsPerMinute →
    (∀ t ∈ ts, t - t0 ≤ 60000) →
    runRateChecks (some ⟨c, t0⟩) ts =
      (min ts.length (maxRequestsPerMinute - c),
       some ⟨min maxRequestsPerMinute (c + ts.length), t0⟩) := by
  induction ts with
  | nil =>
    intro c t0 h1 h2 _
    have e1 : min (List.length ([] : List Int)) (maxRequestsPerMinute - c) = 0 := by
      simp
    have e2 : min maxRequestsPerMinute (c + List.length ([] : List Int)) = c := by
      simp only [List.length_nil]
      omega
    rw [e1, e2]
    rfl
  | cons t rest ih =>
    intro c t0 h1 h2 hin
    have ht : ¬ t - t0 > 60000 := by
      have := hin t (by simp)
      omega
    have hrest : ∀ x ∈ rest, x - t0 ≤ 60000 := fun x hx => hin x (by simp [hx])
    by_cases hc : maxRequestsPerMinute ≤ c
    · have hstep : checkRateLimit (some ⟨c, t0⟩) t = (false, ⟨c, t0⟩) := by
        simp only [checkRateLimit]
        rw [if_neg ht, if_pos hc]
      simp only [runRateChecks, hstep]
      rw [ih c t0 h1 h2 hrest]
      have hM : maxRequestsPerMinute = 60 := rfl
      rw [hM] at h2 hc ⊢
      simp only [List.length_cons, Prod.mk.injEq, Option.some.injEq,
        RateRecord.mk.injEq, Bool.false_eq_true, if_false]
      exact ⟨by omega, by omega, trivial⟩
    · have hstep : checkRateLimit (some ⟨c, t0⟩) t = (true, ⟨c + 1, t0⟩) := by
        simp only [checkRateLimit]
        rw [if_neg ht, if_neg hc]
      simp only [runRateChecks, hstep]
      rw [ih (c + 1) t0 (by omega) (by omega) hrest]
      have hM : maxRequestsPerMinute = 60 := rfl
      rw [hM] at h2 hc ⊢
      simp only [List.length_cons, Prod.mk.injEq, Option.some.injEq,
        RateRecord.mk.injEq, if_true]
      exact ⟨by omega, by omega, trivial⟩

/-- C7: for a single user, a first call at time `t0` followed by further
calls all inside the 60-second window admits exactly
`min (number of calls) maxRequestsPerMinute` requests and leaves the
record at that count with window start `t0` — with 61 calls exactly 60
succeed; a further within-window call at count `maxRequestsPerMinute` is
rejected without touching the record; and a call made after the window
expired installs a fresh record with count 1 and is admitted. -/
theorem checkRateLimit_spec (ts : List Int) (t0 : Int)
    (hin : ∀ t ∈ ts, t - t0 ≤ 60000) :
    runRateChecks none (t0 :: ts) =
      (min (ts.length + 1) maxRequestsPerMinute,
       some ⟨min maxRequestsPerMinute (1 + ts.length), t0⟩)
  ∧ (∀ (c : Nat) (t : Int), maxRequestsPerMinute ≤ c → t - t0 ≤ 60000 →
      checkRateLimit (some ⟨c, t0⟩) t = (false, ⟨c, t0⟩))
  ∧ (∀ (r : RateRecord) (t : Int), t - r.timestamp > 60000 →
      checkRateLimit (some r) t = (true, ⟨1, t⟩)) := by
  refine ⟨?_, ?_, ?_⟩
  · have hstep : checkRateLimit none t0 = (true, ⟨1, t0⟩) := rfl
    simp only [runRateChecks, hstep]
    rw [runRateChecks_window ts 1 t0 (by omega)
      (by simp [maxRequestsPerMinute]) hin]
    have hM : maxRequestsPerMinute = 60 := rfl
    rw [hM]
    simp only [Prod.mk.injEq, if_true]
    exact ⟨by omega, trivial⟩
  · intro c t hc ht
    simp only [checkRateLimit]
    rw [if_neg (by omega), if_pos hc]
  · intro r t ht
    simp only [checkRateLimit]
    rw [if_pos ht]

/-- Witness for C7: 61 calls at time 0 admit exactly 60 and leave the count
at 60; the 61st-style within-window call at count 60 is rejected without
incrementing; a call at 70000 ms starts a fresh window with count 1. -/
theorem checkRateLimit_spec_witness :
    runRateChecks none (0 :: List.replicate 60 (0 : Int)) = (60, some ⟨60, 0⟩)
  ∧ checkRateLimit (some ⟨60, 0⟩) 1 = (false, ⟨60, 0⟩)
  ∧ checkRateLimit (some ⟨60, 0⟩) 70000 = (true, ⟨1, 70000⟩) := by
  have h := checkRateLimit_spec (List.replicate 60 (0 : Int)) 0
    (by
      intro t ht
      have := List.eq_of_mem_replicate ht
      omega)
  refine ⟨?_, ?_, ?_⟩
  · rw [h.1]
    simp [maxRequestsPerMinute]
  · exact h.2.1 60 1 (by simp [maxRequestsPerMinute]) (by omega)
  · exact h.2.2 ⟨60, 0⟩ 70000 (by
      show (70000 : Int) - 0 > 60000
      omega)

/-! ## C9: rate-limit cleanup -/

/-- C9 counterexample: a record whose window started 90 seconds ago — which
the claim says is retained, being expired for less than one further window
length — is already deleted by `cleanupRateLimits`. -/
theorem cleanupRateLimits_counterexample :
    cleanupRateLimits [("user1", ⟨5, 0⟩)] 90000 = []
  ∧ (90000 : Int) - 0 ≤ 2 * 60000 := by
  refine ⟨?_, by norm_num⟩
  rfl

/-- C9 (amended): `cleanupRateLimits` retains exactly the records whose
window started at most 60000 ms before `now`, i.e. it deletes every record
whose 60-second window has expired at all, not only those expired for more
than one further window length. -/
theorem cleanupRateLimits_spec (m : List (String × RateRecord)) (now : Int)
    (p : String × RateRecord) :
    p ∈ cleanupRateLimits m now ↔ p ∈ m ∧ now - p.2.timestamp ≤ 60000 := by
  simp only [cleanupRateLimits, List.mem_filter, decide_eq_true_eq, gt_iff_lt,
    not_lt]

/-! ## C10: the rate-limit check runs first and always counts -/

theorem getRecord_setRecord (m : List (String × RateRecord)) (k : String)
    (v : RateRecord) : getRecord (setRecord m k v) k = some v := by
  induction m with
  | nil => simp [setRecord, getRecord, List.find?]
  | cons p rest ih =>
    by_cases h : p.1 = k
    · simp [setRecord, getRecord, List.find?, h]
    · simp only [setRecord, if_neg h]
      simpa [getRecord, List.find?, h] using ih

theorem validateRequest_invalid (rec : Option RateRecord) (a : Nat)
    (q : String) (now : Int) (hq : questionErrors q ≠ []) :
    (validateRequest rec a q now).1.1 = false := by
  simp only [validateRequest]
  have hne :
      (if ¬ (checkRateLimit rec now).1 then
        ["Rate limit exceeded. Please wait before making more requests."] else [])
      ++ ((if a ≥ maxConcurrentRequests then
        ["Too many concurrent requests. Please try again later."] else [])
      ++ questionErrors q) ≠ [] := by
    intro h
    exact hq (List.append_eq_nil.mp (List.append_eq_nil.mp h).2).2
  simpa using hne

/-- C10: the validation phase of `handleChat` runs the rate-limit check
before the question checks, so the check's state transition always
happens: the user's record after `handleChatValidate` is exactly the
record written by `checkRateLimit`, even when the request is then rejected
for an empty, over-long or malicious question — a fresh or expired window
is set to count 1, an in-window record below the limit is incremented.
When the rate check itself rejects, its message heads the error list. -/
theorem handleChat_validation_consumes_slot
    (m : List (String × RateRecord)) (userId : String) (active : Nat)
    (q : String) (now : Int) (hq : questionErrors q ≠ []) :
    ((handleChatValidate m userId active q now).1.isOk = false)
  ∧ ((handleChatValidate m userId active q now).2 =
      setRecord (cleanupRateLimits m now) userId
        (checkRateLimit (getRecord (cleanupRateLimits m now) userId) now).2)
  ∧ (getRecord ((handleChatValidate m userId active q now).2) userId =
      some (checkRateLimit (getRecord (cleanupRateLimits m now) userId) now).2)
  ∧ (∀ (c : Nat) (t0 : Int),
      getRecord (cleanupRateLimits m now) userId = some ⟨c, t0⟩ →
      now - t0 ≤ 60000 → c < maxRequestsPerMinute →
      (checkRateLimit (getRecord (cleanupRateLimits m now) userId) now).2 =
        ⟨c + 1, t0⟩)
  ∧ (getRecord (cleanupRateLimits m now) userId = none →
      (checkRateLimit (getRecord (cleanupRateLimits m now) userId) now).2 =
        ⟨1, now⟩)
  ∧ (∀ (rec : Option RateRecord) (activeR : Nat),
      (checkRateLimit rec now).1 = false →
      ((validateRequest rec activeR q now).1.2).head? =
        some "Rate limit exceeded. Please wait before making more requests.") := by
  have hv := validateRequest_invalid
    (getRecord (cleanupRateLimits m now) userId) active q now hq
  refine ⟨?_, ?_, ?_, ?_, ?_, ?_⟩
  · simp only [handleChatValidate, hv, Bool.false_eq_true, if_false]
    rfl
  · rfl
  · exact getRecord_setRecord _ _ _
  · intro c t0 hrec hwin hcount
    rw [hrec]
    simp only [checkRateLimit]
    rw [if_neg (by omega), if_neg (by omega)]
  · intro hrec
    rw [hrec]
    rfl
  · intro rec activeR hfail
    simp only [validateRequest, hfail]
    simp

/-- Witness for C10: an empty question with a fresh map at time 0 is
rejected, yet the user's rate record is created with count 1. -/
theorem handleChat_validation_consumes_slot_witness :
    ((handleChatValidate [] "user1" 0 "" 0).1.isOk = false)
  ∧ (getRecord ((handleChatValidate [] "user1" 0 "" 0).2) "user1" =
      some ⟨1, 0⟩) := by
  have h := handleChat_validation_consumes_slot [] "user1" 0 "" 0 (by decide)
  refine ⟨h.1, ?_⟩
  rw [h.2.2.1]
  rfl

/-! ## C3: the retry executor -/

theorem except_isOk_false_iff (x : Except ε α) :
    x.isOk = false ↔ ∃ e, x = Except.error e := by
  cases x <;> simp [Except.isOk, Except.toBool]

theorem withRetryLoop_success (op : Nat → Except ε α) (minD maxD : Nat) :
    ∀ (m a rem : Nat) (le : Option ε) (v : α), 1 ≤ a → m < rem →
    op (a + m) = Except.ok v →
    (∀ i, i < m → ∃ e, op (a + i) = Except.error e) →
    withRetryLoop op minD maxD a rem le =
      (Except.ok v, m + 1,
       (List.range m).map (fun i => min (minD * 2 ^ (a - 1 + i)) maxD)) := by
  intro m
  induction m with
  | zero =>
    intro a rem le v ha hlt hok _
    obtain ⟨r, rfl⟩ : ∃ r, rem = r + 1 := ⟨rem - 1, by omega⟩
    rw [Nat.add_zero] at hok
    simp only [withRetryLoop, hok, List.range_zero, List.map_nil]
  | succ m ih =>
    intro a rem le v ha hlt hok herr
    obtain ⟨e0, he0⟩ := herr 0 (by omega)
    rw [Nat.add_zero] at he0
    obtain ⟨r, rfl⟩ : ∃ r, rem = r + 1 := ⟨rem - 1, by omega⟩
    simp only [withRetryLoop, he0]
    rw [if_neg (show ¬ r = 0 by omega)]
    rw [ih (a + 1) r (some e0) v (by omega) (by omega)
      (by rw [show a + 1 + m = a + (m + 1) by omega]; exact hok)
      (fun i hi => by
        rw [show a + 1 + i = a + (i + 1) by omega]
        exact herr (i + 1) (by omega))]
    refine congrArg (fun l => (Except.ok v, m + 1 + 1, l)) ?_
    rw [List.range_succ_eq_map, List.map_cons, List.map_map]
    refine congrArg₂ (· :: ·) ?_ ?_
    · rw [Nat.add_zero]
    · refine List.map_congr_left (fun i _ => ?_)
      have he : a + i = a - 1 + (i + 1) := by omega
      simp [Function.comp, he]

theorem withRetryLoop_allfail (op : Nat → Except ε α) (minD maxD : Nat) :
    ∀ (rem a : Nat) (le : Option ε), 1 ≤ a → 1 ≤ rem →
    (∀ i, i < rem → ∃ e, op (a + i) = Except.error e) →
    ∃ elast, op (a + (rem - 1)) = Except.error elast ∧
      withRetryLoop op minD maxD a rem le =
        (Except.error (some elast), rem,
         (List.range (rem - 1)).map (fun i => min (minD * 2 ^ (a - 1 + i)) maxD)) := by
  intro rem
  induction rem with
  | zero => omega
  | succ r ih =>
    intro a le ha hr herr
    obtain ⟨e0, he0⟩ := herr 0 (by omega)
    rw [Nat.add_zero] at he0
    by_cases hr0 : r = 0
    · subst hr0
      refine ⟨e0, by simpa using he0, ?_⟩
      simp [withRetryLoop, he0]
    · obtain ⟨elast, hlast, hrec⟩ := ih (a + 1) (some e0) (by omega) (by omega)
        (fun i hi => by
          rw [show a + 1 + i = a + (i + 1) by omega]
          exact herr (i + 1) (by omega))
      refine ⟨elast, ?_, ?_⟩
      · rw [show a + (r + 1 - 1) = a + 1 + (r - 1) by omega]
        exact hlast
      · simp only [withRetryLoop, he0]
        rw [if_neg hr0, hrec]
        refine congrArg (fun l => (Except.error (some elast), r + 1, l)) ?_
        obtain ⟨k, rfl⟩ : ∃ k, r = k + 1 := ⟨r - 1, by omega⟩
        rw [show k + 1 + 1 - 1 = k + 1 from rfl, List.range_succ_eq_map,
          List.map_cons, List.map_map]
        dsimp only
        refine congrArg₂ (· :: ·) ?_ ?_
        · rw [Nat.add_zero]
        · refine List.map_congr_left (fun i _ => ?_)
          have he : a + i = a - 1 + (i + 1) := by omega
          simp [Function.comp, he]

theorem withRetryLoop_invocations_le (op : Nat → Except ε α) (minD maxD : Nat) :
    ∀ (rem a : Nat) (le : Option ε),
    (withRetryLoop op minD maxD a rem le).2.1 ≤ rem := by
  intro rem
  induction rem with
  | zero => intro a le; simp [withRetryLoop]
  | succ r ih =>
    intro a le
    cases hop : op a with
    | ok v => simp [withRetryLoop, hop]
    | error e =>
      by_cases hr0 : r = 0
      · subst hr0; simp [withRetryLoop, hop]
      · simp only [withRetryLoop, hop]
        rw [if_neg hr0]
        have := ih (a + 1) (some e)
        simpa using Nat.add_le_add_right this 1

theorem withRetryLoop_delays_le (op : Nat → Except ε α) (minD maxD : Nat) :
    ∀ (rem a : Nat) (le : Option ε) (d : Nat),
    d ∈ (withRetryLoop op minD maxD a rem le).2.2 → d ≤ maxD := by
  intro rem
  induction rem with
  | zero => intro a le d hd; simp [withRetryLoop] at hd
  | succ r ih =>
    intro a le d hd
    cases hop : op a with
    | ok v => simp [withRetryLoop, hop] at hd
    | error e =>
      by_cases hr0 : r = 0
      · subst hr0; simp [withRetryLoop, hop] at hd
      · simp only [withRetryLoop, hop] at hd
        rw [if_neg hr0] at hd
        rcases List.mem_cons.mp hd with h | h
        · subst h; exact Nat.min_le_right _ _
        · exact ih (a + 1) (some e) d h

/-- C3: `withRetry` invokes the operation at most `maxAttempts` times and
every delay it waits is at most `maxDelay`; when the operation first
succeeds at attempt `k ≤ maxAttempts`, the success value is returned after
exactly `k` invocations with the `k-1` backoff delays
`min(minDelay·2^(i-1), maxDelay)` for `i = 1..k-1`; when all `maxAttempts`
attempts fail, the last error is re-raised after exactly `maxAttempts`
invocations and `maxAttempts - 1` such delays. -/
theorem withRetry_spec (op : Nat → Except ε α) (opts : RetryOptions)
    (hmax : 1 ≤ opts.maxAttempts) :
    ((withRetry op opts).2.1 ≤ opts.maxAttempts)
  ∧ (∀ d ∈ (withRetry op opts).2.2, d ≤ opts.maxDelay)
  ∧ (∀ (k : Nat) (v : α), 1 ≤ k → k ≤ opts.maxAttempts →
      op k = Except.ok v →
      (∀ i, 1 ≤ i → i < k → (op i).isOk = false) →
      withRetry op opts =
        (Except.ok v, k, backoffDelays opts.minDelay opts.maxDelay (k - 1)))
  ∧ ((∀ i, 1 ≤ i → i ≤ opts.maxAttempts → (op i).isOk = false) →
      ∃ elast, op opts.maxAttempts = Except.error elast ∧
        withRetry op opts =
          (Except.error (some elast), opts.maxAttempts,
           backoffDelays opts.minDelay opts.maxDelay (opts.maxAttempts - 1))) := by
  refine ⟨?_, ?_, ?_, ?_⟩
  · exact withRetryLoop_invocations_le op opts.minDelay opts.maxDelay
      opts.maxAttempts 1 none
  · exact fun d hd => withRetryLoop_delays_le op opts.minDelay opts.maxDelay
      opts.maxAttempts 1 none d hd
  · intro k v hk1 hk2 hok hfail
    have h := withRetryLoop_success op opts.minDelay opts.maxDelay (k - 1) 1
      opts.maxAttempts none v (by omega) (by omega)
      (by rw [show 1 + (k - 1) = k by omega]; exact hok)
      (fun i hi => by
        have := (except_isOk_false_iff (op (1 + i))).mp
          (hfail (1 + i) (by omega) (by omega))
        exact this)
    rw [withRetry, h, show k - 1 + 1 = k by omega]
    simp only [backoffDelays]
    refine congrArg (fun l => (Except.ok v, k, l)) ?_
    refine List.map_congr_left (fun i _ => ?_)
    rw [show (1 : Nat) - 1 + i = i by omega]
  · intro hfail
    obtain ⟨elast, hlast, hloop⟩ := withRetryLoop_allfail op opts.minDelay
      opts.maxDelay opts.maxAttempts 1 none (by omega) hmax
      (fun i hi =>
        (except_isOk_false_iff (op (1 + i))).mp
          (hfail (1 + i) (by omega) (by omega)))
    refine ⟨elast, ?_, ?_⟩
    · rw [show 1 + (opts.maxAttempts - 1) = opts.maxAttempts by omega] at hlast
      exact hlast
    · rw [withRetry, hloop]
      simp only [backoffDelays]
      refine congrArg (fun l => (Except.error (some elast), opts.maxAttempts, l)) ?_
      refine List.map_congr_left (fun i _ => ?_)
      rw [show (1 : Nat) - 1 + i = i by omega]

/-- Witness for C3: with `maxAttempts = 3, minDelay = 1000, maxDelay = 10000`
an operation failing once then succeeding returns the success value after
2 invocations and one 1000 ms delay. -/
theorem withRetry_spec_witness :
    withRetry retryWitnessOp ⟨3, 1000, 10000⟩ = (Except.ok 42, 2, [1000]) := by
  have h := (withRetry_spec retryWitnessOp ⟨3, 1000, 10000⟩ (by norm_num)).2.2.1
    2 42 (by norm_num) (by norm_num) (by rfl)
    (by
      intro i h1 h2
      have hi : i = 1 := by omega
      subst hi
      rfl)
  rw [h]
  rfl

/-! ## C1: the history and key-points bounds are invariant -/

theorem takeLast_length_le (n : Nat) (l : List α) : (takeLast n l).length ≤ n := by
  simp only [takeLast, List.length_drop]
  omega

theorem freshState_inv (now : Int) : stateInv (freshState now) := by
  constructor <;> simp [freshState, MAX_HISTORY_LENGTH, MAX_KEY_POINTS]

theorem getOrCreateState_inv (st : Option ConversationState) (now : Int)
    (h : optStateInv st) : stateInv (getOrCreateState st now) := by
  cases st with
  | none =>
    simp only [getOrCreateState, Option.getD]
    split
    · exact freshState_inv now
    · exact freshState_inv now
  | some s =>
    simp only [getOrCreateState, Option.getD]
    split
    · exact freshState_inv now
    · exact h

theorem updateState_history (st : Option ConversationState) (u : StateUpdates)
    (now : Int) :
    (updateState st u now).history = (getOrCreateState st now).history ∨
    ∃ h, u.history = some h ∧
      (updateState st u now).history = takeLast MAX_HISTORY_LENGTH h := by
  obtain ⟨cc, fq, pq, lr, hh⟩ := u
  cases hh with
  | some l =>
    right
    refine ⟨l, rfl, ?_⟩
    simp only [updateState]
  | none =>
    left
    simp only [updateState]
    cases cc <;> cases fq <;> cases pq <;> cases lr <;> (repeat' split) <;> rfl

theorem updateState_keyPoints (st : Option ConversationState) (u : StateUpdates)
    (now : Int) :
    (updateState st u now).openAIContext =
      (getOrCreateState st now).openAIContext := by
  obtain ⟨cc, fq, pq, lr, hh⟩ := u
  simp only [updateState]
  cases cc <;> cases fq <;> cases pq <;> cases lr <;> cases hh <;>
    (repeat' split) <;> rfl

theorem applySummaryOutcome_history (s : ConversationState) (o : SummaryOutcome) :
    (applySummaryOutcome s o).history = s.history := by
  cases o <;> rfl

theorem applySummaryOutcome_keyPoints (s : ConversationState) (o : SummaryOutcome)
    (h : s.openAIContext.keyPoints.length ≤ MAX_KEY_POINTS) :
    (applySummaryOutcome s o).openAIContext.keyPoints.length ≤ MAX_KEY_POINTS := by
  cases o with
  | analysisOk a resp =>
    simp only [applySummaryOutcome, List.length_take]
    omega
  | fallbackOk resp =>
    simp only [applySummaryOutcome, List.length_take]
    omega
  | bothFail => exact h

theorem applySummaryOutcome_inv (s : ConversationState) (o : SummaryOutcome)
    (h : stateInv s) : stateInv (applySummaryOutcome s o) := by
  constructor
  · rw [applySummaryOutcome_history]
    exact h.1
  · exact applySummaryOutcome_keyPoints s o h.2

theorem optimizeOpenAIContext_inv (s : ConversationState) (now : Int)
    (o : SummaryOutcome) (h : stateInv s) :
    stateInv (optimizeOpenAIContext s now o).1 := by
  have hexp : stateInv (if contextExpired s now then
      { s with openAIContext :=
        { s.openAIContext with lastTokenCount := 0, summary := "", keyPoints := [] } }
    else s) := by
    split
    · exact ⟨h.1, by simp [MAX_KEY_POINTS]⟩
    · exact h
  have hsum : stateInv (if estimateTokenCount (assembleMessages s now) >
      MAX_TOTAL_TOKENS then
      applySummaryOutcome (if contextExpired s now then
        { s with openAIContext :=
          { s.openAIContext with lastTokenCount := 0, summary := "", keyPoints := [] } }
      else s) o
    else (if contextExpired s now then
      { s with openAIContext :=
        { s.openAIContext with lastTokenCount := 0, summary := "", keyPoints := [] } }
    else s)) := by
    split
    · exact applySummaryOutcome_inv _ o hexp
    · exact hexp
  exact ⟨hsum.1, hsum.2⟩

theorem applyChatOp_inv (st : Option ConversationState) (op : ChatOp)
    (h : optStateInv st) : optStateInv (applyChatOp st op) := by
  cases op with
  | getOrCreate now => exact getOrCreateState_inv st now h
  | update u now =>
    have hk := updateState_keyPoints st u now
    have hh := updateState_history st u now
    have hg := getOrCreateState_inv st now h
    constructor
    · rcases hh with hh | ⟨l, _, hh⟩
      · rw [hh]; exact hg.1
      · rw [hh]; exact takeLast_length_le _ _
    · rw [hk]; exact hg.2
  | updateHistoryDirect l now =>
    have hg := getOrCreateState_inv st now h
    exact ⟨takeLast_length_le _ _, hg.2⟩
  | summarize o =>
    cases st with
    | none => trivial
    | some s => exact applySummaryOutcome_inv s o h
  | optimize now o =>
    cases st with
    | none => trivial
    | some s => exact optimizeOpenAIContext_inv s now o h
  | clear => trivial

theorem foldl_applyChatOp_inv (ops : List ChatOp) :
    ∀ (st : Option ConversationState), optStateInv st →
    optStateInv (ops.foldl applyChatOp st) := by
  induction ops with
  | nil => intro st h; exact h
  | cons op rest ih =>
    intro st h
    exact ih (applyChatOp st op) (applyChatOp_inv st op h)

/-- C1: starting from an absent conversation state, after any sequence of
the state-mutating operations (create-or-fetch, `updateState` during
`handleChat`, `updateConversationHistory`, summary regeneration with any
completion outcome, context optimisation with its expiry reset, and
clearing), the state always satisfies
`history.length ≤ MAX_HISTORY_LENGTH` and
`openAIContext.keyPoints.length ≤ MAX_KEY_POINTS`. -/
theorem conversationState_bounds_invariant (ops : List ChatOp) :
    optStateInv (ops.foldl applyChatOp none) :=
  foldl_applyChatOp_inv ops none trivial

/-! ## C2: case-aware formatting of search results -/

theorem insertGroup_keys (gs : List (String × List SearchResult)) (k : String)
    (r : SearchResult) :
    (insertGroup gs k r).map Prod.fst =
      if k ∈ gs.map Prod.fst then gs.map Prod.fst else gs.map Prod.fst ++ [k] := by
  induction gs with
  | nil => simp [insertGroup]
  | cons p rest ih =>
    by_cases h : p.1 = k
    · simp [insertGroup, h]
    · simp only [insertGroup, if_neg h, List.map_cons, ih]
      by_cases hm : k ∈ List.map Prod.fst rest
      · simp [hm]
      · simp [hm, List.mem_cons, Ne.symm h]

theorem groupByCase_keys_aux (results : List SearchResult) :
    ∀ gs : List (String × List SearchResult),
    (results.foldl (fun gs r => insertGroup gs (caseKey r) r) gs).map Prod.fst =
      (results.map caseKey).foldl
        (fun acc k => if k ∈ acc then acc else acc ++ [k]) (gs.map Prod.fst) := by
  induction results with
  | nil => intro gs; rfl
  | cons r rest ih =>
    intro gs
    simp only [List.foldl_cons, List.map_cons]
    rw [ih, insertGroup_keys]

theorem insertGroup_members (k : String) (r : SearchResult)
    (hk : caseKey r = k) :
    ∀ gs : List (String × List SearchResult),
    (∀ p ∈ gs, ∀ x ∈ p.2, caseKey x = p.1) →
    ∀ p ∈ insertGroup gs k r, ∀ x ∈ p.2, caseKey x = p.1 := by
  intro gs
  induction gs with
  | nil =>
    intro _ p hp x hx
    simp only [insertGroup, List.mem_singleton] at hp
    subst hp
    simp only [List.mem_singleton] at hx
    subst hx
    exact hk
  | cons q rest ih =>
    intro H p hp x hx
    by_cases hq : q.1 = k
    · simp only [insertGroup, if_pos hq, List.mem_cons] at hp
      rcases hp with hp | hp
      · subst hp
        simp only [List.mem_append, List.mem_singleton] at hx
        rcases hx with hx | hx
        · exact H q (List.mem_cons_self q rest) x hx
        · subst hx
          exact hk.trans hq.symm
      · exact H p (List.mem_cons_of_mem q hp) x hx
    · simp only [insertGroup, if_neg hq, List.mem_cons] at hp
      rcases hp with hp | hp
      · subst hp
        exact H q (List.mem_cons_self q rest) x hx
      · exact ih (fun p' hp' => H p' (List.mem_cons_of_mem q hp')) p hp x hx

theorem groupByCase_members_aux (results : List SearchResult) :
    ∀ gs : List (String × List SearchResult),
    (∀ p ∈ gs, ∀ x ∈ p.2, caseKey x = p.1) →
    ∀ p ∈ results.foldl (fun gs r => insertGroup gs (caseKey r) r) gs,
      ∀ x ∈ p.2, caseKey x = p.1 := by
  induction results with
  | nil => intro gs H; exact H
  | cons r rest ih =>
    intro gs H
    simp only [List.foldl_cons]
    exact ih (insertGroup gs (caseKey r) r)
      (insertGroup_members (caseKey r) r rfl gs H)

theorem sortedContentChunks_sorted (rs : List SearchResult) :
    (sortedContentChunks rs).Pairwise (fun a b => chunkIdx a ≤ chunkIdx b) := by
  have h := @List.sorted_mergeSort SearchResult
    (fun a b => decide (chunkIdx a ≤ chunkIdx b))
    (fun a b c hab hbc => by
      simp only [decide_eq_true_eq] at hab hbc ⊢
      omega)
    (fun a b => by
      simp only [Bool.or_eq_true, decide_eq_true_eq]
      omega)
    (rs.filter (fun r => r.metadata.type == some "content"))
  refine List.Pairwise.imp ?_ h
  intro a b hab
  simpa using hab

theorem sortedContentChunks_perm (rs : List SearchResult) :
    (sortedContentChunks rs).Perm
      (rs.filter (fun r => r.metadata.type == some "content")) :=
  List.mergeSort_perm _ _

/-- C2: `formatSearchResults` groups the hits by case id; the group list
carries the case ids in order of first appearance in the input; every hit
inside a case's group carries that case's id (no interleaving across
blocks); each case's content chunks are sorted ascending by
`chunkIndex || 0` and are exactly that case's content hits; and the output
string is the per-case blocks — header, then the summary section, then the
sorted content section, then the score footer — joined in group order. -/
theorem formatSearchResults_spec (results : List SearchResult) :
    ((groupByCase results).map Prod.fst = firstAppearanceKeys results)
  ∧ (∀ p ∈ groupByCase results, ∀ r ∈ p.2, caseKey r = p.1)
  ∧ (∀ p ∈ groupByCase results,
      (sortedContentChunks p.2).Pairwise (fun a b => chunkIdx a ≤ chunkIdx b) ∧
      (sortedContentChunks p.2).Perm
        (p.2.filter (fun r => r.metadata.type == some "content")))
  ∧ (formatSearchResults results =
      String.intercalate "\n\n" ((groupByCase results).map (fun p =>
        caseHeader (p.2.headD emptySearchResult).metadata ++
        summarySection (summariesOf p.2) ++
        contentSection (sortedContentChunks p.2) ++
        scoreFooter (p.2.headD emptySearchResult).score))) := by
  refine ⟨?_, ?_, ?_, rfl⟩
  · have h := groupByCase_keys_aux results []
    simpa [groupByCase, firstAppearanceKeys] using h
  · exact groupByCase_members_aux results [] (by simp)
  · intro p _
    exact ⟨sortedContentChunks_sorted p.2, sortedContentChunks_perm p.2⟩

/-- Witness for C2: on the spec's example (chunks [2,0,1] for one case and
[1,0] for another) the case blocks appear in first-discovery order and the
second case's chunks are sorted and a permutation of its content hits. -/
theorem formatSearchResults_spec_witness :
    ((groupByCase c2Example).map Prod.fst = ["case-A", "case-B"])
  ∧ caseKey c2B0 = "case-B"
  ∧ (sortedContentChunks [c2B1, c2B0]).Pairwise
      (fun a b => chunkIdx a ≤ chunkIdx b)
  ∧ (sortedContentChunks [c2B1, c2B0]).Perm
      ([c2B1, c2B0].filter (fun r => r.metadata.type == some "content")) := by
  have h := formatSearchResults_spec c2Example
  refine ⟨?_, ?_, ?_, ?_⟩
  · rw [h.1]
    decide
  · exact h.2.1 ("case-B", [c2B1, c2B0]) (by decide) c2B0 (by decide)
  · exact (h.2.2.1 ("case-B", [c2B1, c2B0]) (by decide)).1
  · exact (h.2.2.1 ("case-B", [c2B1, c2B0]) (by decide)).2

/-! ## C4: the context-optimiser token budget -/

theorem refitLoop_spec :
    ∀ (rl cur : List ChatMessage),
    estimateTokenCount cur ≤ MAX_TOTAL_TOKENS →
    ∃ taken, refitLoop cur rl = cur ++ taken ∧ taken <+: rl ∧
      estimateTokenCount (refitLoop cur rl) ≤ MAX_TOTAL_TOKENS := by
  intro rl
  induction rl with
  | nil =>
    intro cur h
    exact ⟨[], by simp [refitLoop], ⟨[], rfl⟩, by simpa [refitLoop] using h⟩
  | cons m rest ih =>
    intro cur h
    by_cases hfit : estimateTokenCount (cur ++ [m]) ≤ MAX_TOTAL_TOKENS
    · obtain ⟨taken, h1, h2, h3⟩ := ih (cur ++ [m]) hfit
      obtain ⟨t, ht⟩ := h2
      refine ⟨m :: taken, ?_, ⟨t, by simp [ht]⟩, ?_⟩
      · simp only [refitLoop, if_pos hfit]
        rw [h1]
        simp
      · simp only [refitLoop, if_pos hfit]
        exact h3
    · refine ⟨[], by simp [refitLoop, if_neg hfit], ⟨m :: rest, rfl⟩, ?_⟩
      simpa [refitLoop, if_neg hfit] using h

/-- C4: whenever the assembled message list's estimated token count exceeds
`MAX_TOTAL_TOKENS`, the optimiser returns the first system message of the
assembled list followed by a set of kept messages which — read
chronologically — form a contiguous suffix of the 10 most recent history
entries, and (provided the system message alone fits the budget, as the
fixed `SYSTEM_PROMPTS.LEGAL` always does) the returned list's estimated
token count is at most `MAX_TOTAL_TOKENS`; `optimizeOpenAIContext` hands
exactly this list back for every summary-regeneration outcome. -/
theorem optimizeOpenAIContext_budget (st : ConversationState) (now : Int)
    (s : ChatMessage)
    (hfind : (assembleMessages st now).find? (fun m => m.role == Role.system) =
      some s)
    (hs : estimateTokenCount [s] ≤ MAX_TOTAL_TOKENS)
    (hover : MAX_TOTAL_TOKENS < estimateTokenCount (assembleMessages st now)) :
    ∃ kept, optimizeMessages st now = s :: kept
      ∧ kept.reverse <:+ takeLast MAX_HISTORY_LENGTH st.history
      ∧ estimateTokenCount (optimizeMessages st now) ≤ MAX_TOTAL_TOKENS
      ∧ ∀ o, (optimizeOpenAIContext st now o).2 = s :: kept := by
  have heq : optimizeMessages st now =
      refitLoop [s] (takeLast MAX_HISTORY_LENGTH st.history).reverse := by
    simp only [optimizeMessages, if_pos hover, hfind]
  obtain ⟨taken, h1, h2, h3⟩ :=
    refitLoop_spec ((takeLast MAX_HISTORY_LENGTH st.history).reverse) [s] hs
  obtain ⟨t, ht⟩ := h2
  refine ⟨taken, ?_, ?_, ?_, ?_⟩
  · rw [heq, h1]
    rfl
  · exact ⟨t.reverse, by rw [← List.reverse_append, ht, List.reverse_reverse]⟩
  · rw [heq]
    exact h3
  · intro o
    have : (optimizeOpenAIContext st now o).2 = optimizeMessages st now := rfl
    rw [this, heq, h1]
    rfl

theorem stringMk_length (l : List Char) : (String.mk l).length = l.length := rfl

theorem foldl_token_acc (l : List ChatMessage) :
    ∀ acc : Nat,
    l.foldl (fun a m => a + (m.content.length + 3) / 4) acc =
      acc + l.foldl (fun a m => a + (m.content.length + 3) / 4) 0 := by
  induction l with
  | nil =>
    intro acc
    simp
  | cons m rest ih =>
    intro acc
    rw [List.foldl_cons, List.foldl_cons, ih (acc + (m.content.length + 3) / 4),
      ih ((0 : Nat) + (m.content.length + 3) / 4)]
    omega

theorem estimateTokenCount_cons (m : ChatMessage) (l : List ChatMessage) :
    estimateTokenCount (m :: l) =
      (m.content.length + 3) / 4 + estimateTokenCount l := by
  show (m :: l).foldl (fun a m => a + (m.content.length + 3) / 4) 0 =
    (m.content.length + 3) / 4 +
      l.foldl (fun a m => a + (m.content.length + 3) / 4) 0
  rw [List.foldl_cons, foldl_token_acc l ((0 : Nat) + (m.content.length + 3) / 4)]
  omega

theorem hugeMessage_length : hugeMessage.content.length = 40000 := by
  show (String.mk (List.replicate 40000 'a')).length = 40000
  rw [stringMk_length, List.length_replicate]

set_option maxRecDepth 100000 in
/-- Witness for C4: a state whose single 40000-character history entry blows
the budget; the optimiser keeps the system message and stays within
`MAX_TOTAL_TOKENS`. -/
theorem optimizeOpenAIContext_budget_witness :
    (MAX_TOTAL_TOKENS < estimateTokenCount (assembleMessages overBudgetState 0))
  ∧ ∃ kept, optimizeMessages overBudgetState 0 = systemLegalMessage :: kept
      ∧ kept.reverse <:+ takeLast MAX_HISTORY_LENGTH overBudgetState.history
      ∧ estimateTokenCount (optimizeMessages overBudgetState 0) ≤
          MAX_TOTAL_TOKENS := by
  have hasm : assembleMessages overBudgetState 0 =
      [systemLegalMessage, hugeMessage] := by
    rfl
  have hover : MAX_TOTAL_TOKENS <
      estimateTokenCount (assembleMessages overBudgetState 0) := by
    rw [hasm, estimateTokenCount_cons, estimateTokenCount_cons,
      hugeMessage_length, show estimateTokenCount [] = 0 from rfl,
      show MAX_TOTAL_TOKENS = 8000 from rfl]
    omega
  have hfind : (assembleMessages overBudgetState 0).find?
      (fun m => m.role == Role.system) = some systemLegalMessage := by
    rw [hasm]
    rfl
  have hs : estimateTokenCount [systemLegalMessage] ≤ MAX_TOTAL_TOKENS := by
    decide
  obtain ⟨kept, h1, h2, h3, _⟩ :=
    optimizeOpenAIContext_budget overBudgetState 0 systemLegalMessage hfind hs
      hover
  exact ⟨hover, kept, h1, h2, h3⟩

/-! ## C5: a failed per-case fetch aborts the whole search -/

/-- C5 counterexample: with two discovered cases where only `case-A`'s
chunk fetch fails, `searchRelevantDocuments` returns the error — the
documents of the healthy `case-B` are not returned. -/
theorem searchRelevantDocuments_failure_counterexample :
    (searchRelevantDocuments "query" [] c5Env).1 =
      Except.error "network failure" := by
  rfl

theorem promiseAll_error_of_mem :
    ∀ (l : List (Except ε α)), (∃ x ∈ l, ∃ e, x = Except.error e) →
    ∃ e, promiseAll l = Except.error e := by
  intro l
  induction l with
  | nil => rintro ⟨x, hx, _⟩; cases hx
  | cons x rest ih =>
    rintro ⟨y, hy, e, he⟩
    subst he
    cases x with
    | error e0 => exact ⟨e0, rfl⟩
    | ok a =>
      have hyr : Except.error e ∈ rest := by
        rcases List.mem_cons.mp hy with h | h
        · simp at h
        · exact h
      obtain ⟨e1, he1⟩ := ih ⟨_, hyr, e, rfl⟩
      refine ⟨e1, ?_⟩
      simp only [promiseAll, he1]
      rfl

/-- C5 (amended): the per-case content fetches of `searchRelevantDocuments`
are combined with `Promise.all`, so one case's fetch failure rejects the
combined promise and the whole search fails with an error — no documents,
not even those of the other cases, are returned. The tolerant behaviour
the claim describes (failure caught, the case contributing no documents)
exists only in the `fetchCaseChunks` helper, which `searchRelevantDocuments`
does not invoke. -/
theorem searchRelevantDocuments_failure_aborts (query : String)
    (prevDocs : List SearchResult) (env : SearchEnv)
    (h : ∃ cid ∈ discoveredCaseIds env, ∃ e, env.chunkFetch cid = Except.error e) :
    (∃ e, (searchRelevantDocuments query prevDocs env).1 = Except.error e)
  ∧ (∀ (sf cf : Except String (List Document)) (sc : Option ℚ) (e : String),
      (sf = Except.error e ∨ cf = Except.error e) →
      fetchCaseChunks sf cf sc = ⟨none, none⟩) := by
  constructor
  · obtain ⟨cid, hcid, e, he⟩ := h
    obtain ⟨e1, he1⟩ := promiseAll_error_of_mem
      ((discoveredCaseIds env).map
        (fun cid => (env.chunkFetch cid).map (fun cs => (cid, cs))))
      ⟨(env.chunkFetch cid).map (fun cs => (cid, cs)),
        List.mem_map_of_mem _ hcid,
        e, by rw [he]; rfl⟩
    refine ⟨e1, ?_⟩
    simp only [searchRelevantDocuments, he1]
  · intro sf cf sc e he
    rcases he with he | he
    · subst he
      rfl
    · subst he
      cases sf with
      | error e0 => rfl
      | ok l => cases sc <;> cases l <;> rfl

/-- Witness for C5 (amended): the concrete two-case environment aborts, and
`fetchCaseChunks` swallows the same failure. -/
theorem searchRelevantDocuments_failure_aborts_witness :
    (∃ e, (searchRelevantDocuments "query" [] c5Env).1 = Except.error e)
  ∧ fetchCaseChunks (Except.error "network failure") (Except.ok [c5ChunkB])
      none = ⟨none, none⟩ := by
  have h := searchRelevantDocuments_failure_aborts "query" [] c5Env
    ⟨"case-A", by decide, "network failure", by rfl⟩
  exact ⟨h.1, h.2 _ _ none "network failure" (Or.inl rfl)⟩

/-! ## C6: zero discovered cases surface NoRelevantDocuments -/

/-- C6: when neither the summary-filtered search nor the unfiltered
fallback yields any case id, `searchRelevantDocuments` returns the empty
hit list, and `handleRagQuestion` turns that into the specific
`ERROR_MESSAGES.NO_RELEVANT_DOCS` error — which is distinct from the
generic retrieval-failure message. -/
theorem handleRagQuestion_noDocs (question : String) (history : List ChatMessage)
    (prevDocs : List SearchResult) (env : RagEnv)
    (h1 : collectCaseIds env.search.summaryHits = [])
    (h2 : collectCaseIds env.search.generalHits = []) :
    ((searchRelevantDocuments question prevDocs env.search).1 = Except.ok [])
  ∧ (handleRagQuestion question history prevDocs env =
      Except.error ERROR_NO_RELEVANT_DOCS)
  ∧ ERROR_NO_RELEVANT_DOCS ≠ ERROR_RETRIEVAL_GENERIC := by
  have hids : discoveredCaseIds env.search = [] := by
    simp [discoveredCaseIds, h1, h2]
  have hsearch : (searchRelevantDocuments question prevDocs env.search).1 =
      Except.ok [] := by
    simp [searchRelevantDocuments, hids, promiseAll]
  refine ⟨hsearch, ?_, by decide⟩
  simp only [handleRagQuestion, hsearch]
  rfl

/-- Witness for C6: the concrete empty environment yields exactly the
NoRelevantDocuments error. -/
theorem handleRagQuestion_noDocs_witness :
    handleRagQuestion "q" [] [] c6Env = Except.error ERROR_NO_RELEVANT_DOCS :=
  (handleRagQuestion_noDocs "q" [] [] c6Env rfl rfl).2.1

/-! ## C8: no query expansion before the vector search -/

/-- C8: contrary to the claim (and the repository's own documentation of the
search process), `searchRelevantDocuments` performs no completion call at
all — for every environment the call trace contains only vector searches —
and on the failing input the queries it sends to the vector index are the
raw question, not an expanded one. The `expandQuery` helper (whose failure
fallback does return the unexpanded query) is dead code in this service. -/
theorem searchRelevantDocuments_no_expansion :
    (∀ (query : String) (prevDocs : List SearchResult) (env : SearchEnv),
      (searchRelevantDocuments query prevDocs env).2.filter isCompletionCall = [])
  ∧ ((searchRelevantDocuments "Aké sú tresty za marihuánu?" [] c8Env).2 =
      [ExtCall.vectorSearch "Aké sú tresty za marihuánu?" 3 "type=Zhrnutie",
       ExtCall.vectorSearch "Aké sú tresty za marihuánu?" 3 "unfiltered"])
  ∧ (expandQuery (Except.error "completion failed") "Aké sú tresty za marihuánu?"
      = "Aké sú tresty za marihuánu?") := by
  refine ⟨?_, by rfl, rfl⟩
  intro query prevDocs env
  have hcalls : (searchRelevantDocuments query prevDocs env).2 =
      [ExtCall.vectorSearch (buildSearchQuery query prevDocs) 3 "type=Zhrnutie"]
      ++ ((if collectCaseIds env.summaryHits = [] then
          [ExtCall.vectorSearch (buildSearchQuery query prevDocs) 3 "unfiltered"]
        else [])
      ++ (discoveredCaseIds env).map (fun cid =>
          ExtCall.vectorSearch "" 5 ("caseId=" ++ cid ++ ",type=content"))) := by
    simp only [searchRelevantDocuments]
    cases hp : promiseAll ((discoveredCaseIds env).map
        (fun cid => (env.chunkFetch cid).map (fun cs => (cid, cs)))) <;>
      simp only [hp] <;> rfl
  rw [hcalls, List.filter_append, List.filter_append]
  have f1 : [ExtCall.vectorSearch (buildSearchQuery query prevDocs) 3
      "type=Zhrnutie"].filter isCompletionCall = [] := rfl
  have f2 : (if collectCaseIds env.summaryHits = [] then
      [ExtCall.vectorSearch (buildSearchQuery query prevDocs) 3 "unfiltered"]
    else []).filter isCompletionCall = [] := by
    split <;> rfl
  have f3 : ((discoveredCaseIds env).map (fun cid =>
      ExtCall.vectorSearch "" 5 ("caseId=" ++ cid ++ ",type=content"))).filter
        isCompletionCall = [] := by
    induction discoveredCaseIds env with
    | nil => rfl
    | cons c rest ih =>
      simp only [List.map_cons, List.filter_cons]
      rw [if_neg (by simp [isCompletionCall])]
      exact ih
  rw [f1, f2, f3]
  rfl

end RagBackend
